import Mathlib

/-!
Verification of the asset-management server (`cursed-cms`).

The development shallowly embeds the core of the repository:
`src/server/src/controllers/asset.controller.ts` (asset ingestion and
metadata upsert) and `src/server/src/routes/asset.routes.ts` (the HTTP
handlers for `POST /assets/ingest` and `POST /assets/:uuid/metadata`).
External collaborators (MinIO object store, Prisma database, Redis
publisher) are modelled as explicit state (association lists) together
with an oracle of call outcomes, so that every failure branch of the
TypeScript code is reachable in the model.  JavaScript string helpers
(`path.extname`, `path.basename`, `String.replace`, `toLowerCase`) and
the MD5 digest used for the content hash are implemented directly.
-/

/-! ## JavaScript / Node string primitives -/

/-- Whitespace characters matched by the JavaScript regex class `\s`
(restricted to the ASCII range, which is all that filenames and metadata
fields use here). -/
def jsWhitespace (c : Char) : Bool :=
  c == ' ' || c == '\t' || c == '\n' || c == '\r' || c == '\x0b' || c == '\x0c'

/-- Core of `String.replace(/\s+/g, '_')`: every maximal run of whitespace
characters is replaced by a single underscore.  The boolean argument records
whether the previously emitted character belonged to a whitespace run. -/
def collapseWsAux : List Char → Bool → List Char
  | [], _ => []
  | c :: cs, prevWs =>
    if jsWhitespace c then
      (if prevWs then [] else ['_']) ++ collapseWsAux cs true
    else
      c :: collapseWsAux cs false

/-- Model of `s.replace(/\s+/g, '_').toLowerCase()` as used for the
location and camera components of the storage path. -/
def wsToUnderscoreLower (s : String) : String :=
  ((collapseWsAux s.toList false).map Char.toLower).asString

/-- Model of `s.replace(/[^0-9]/g, '')`: keep only decimal digits. -/
def digitsOnly (s : String) : String :=
  (s.toList.filter Char.isDigit).asString

/-- Model of JavaScript `s.replace('.', '')` with a plain-string pattern:
only the first occurrence of `'.'` is removed. -/
def removeFirstDot : List Char → List Char
  | [] => []
  | c :: cs => if c == '.' then cs else c :: removeFirstDot cs

/-- String-level wrapper for `removeFirstDot`. -/
def removeDotOnce (s : String) : String :=
  (removeFirstDot s.toList).asString

/-- Final path component: the characters after the last `'/'`. -/
def basenameList (l : List Char) : List Char :=
  (l.reverse.takeWhile (fun c => c != '/')).reverse

/-- Model of Node `path.basename` for paths without trailing separators
(the only shape that occurs in this code: uploaded filenames and derived
storage keys). -/
def basename (s : String) : String :=
  (basenameList s.toList).asString

/-- Extension of a basename, Node `path.extname` semantics: the suffix from
the last `'.'` to the end, or `[]` when there is no dot, when the only dot
is the leading character of the basename, or for the special name `".."`. -/
def extnameList (b : List Char) : List Char :=
  if b = ['.', '.'] then []
  else
    let tail := b.reverse.takeWhile (fun c => c != '.')
    if tail.length + 1 < b.length then '.' :: tail.reverse else []

/-- Model of Node `path.extname` (for paths without trailing separators). -/
def extname (s : String) : String :=
  (extnameList (basenameList s.toList)).asString

/-! ## MD5 (RFC 1321), over byte lists, rendered as lowercase hex -/

/-- 32-bit left rotation on a value already reduced modulo `2 ^ 32`. -/
def rotl32 (x s : Nat) : Nat :=
  ((x <<< s) ||| (x >>> (32 - s))) &&& 0xffffffff

/-- The 64 MD5 sine-derived round constants. -/
def md5K : List Nat :=
  [0xd76aa478, 0xe8c7b756, 0x242070db, 0xc1bdceee,
   0xf57c0faf, 0x4787c62a, 0xa8304613, 0xfd469501,
   0x698098d8, 0x8b44f7af, 0xffff5bb1, 0x895cd7be,
   0x6b901122, 0xfd987193, 0xa679438e, 0x49b40821,
   0xf61e2562, 0xc040b340, 0x265e5a51, 0xe9b6c7aa,
   0xd62f105d, 0x02441453, 0xd8a1e681, 0xe7d3fbc8,
   0x21e1cde6, 0xc33707d6, 0xf4d50d87, 0x455a14ed,
   0xa9e3e905, 0xfcefa3f8, 0x676f02d9, 0x8d2a4c8a,
   0xfffa3942, 0x8771f681, 0x6d9d6122, 0xfde5380c,
   0xa4beea44, 0x4bdecfa9, 0xf6bb4b60, 0xbebfbc70,
   0x289b7ec6, 0xeaa127fa, 0xd4ef3085, 0x04881d05,
   0xd9d4d039, 0xe6db99e5, 0x1fa27cf8, 0xc4ac5665,
   0xf4292244, 0x432aff97, 0xab9423a7, 0xfc93a039,
   0x655b59c3, 0x8f0ccc92, 0xffeff47d, 0x85845dd1,
   0x6fa87e4f, 0xfe2ce6e0, 0xa3014314, 0x4e0811a1,
   0xf7537e82, 0xbd3af235, 0x2ad7d2bb, 0xeb86d391]

/-- The 64 MD5 per-round left-rotation amounts. -/
def md5S : List Nat :=
  [7, 12, 17, 22, 7, 12, 17, 22, 7, 12, 17, 22, 7, 12, 17, 22,
   5, 9, 14, 20, 5, 9, 14, 20, 5, 9, 14, 20, 5, 9, 14, 20,
   4, 11, 16, 23, 4, 11, 16, 23, 4, 11, 16, 23, 4, 11, 16, 23,
   6, 10, 15, 21, 6, 10, 15, 21, 6, 10, 15, 21, 6, 10, 15, 21]

/-- One MD5 operation: `M` is the 16-word message schedule of the current
chunk, the state is the register quadruple `(a, b, c, d)`. -/
def md5Round (M : Nat → Nat) (st : Nat × Nat × Nat × Nat) (i : Nat) :
    Nat × Nat × Nat × Nat :=
  let (a, b, c, d) := st
  let fg : Nat × Nat :=
    if i < 16 then ((b &&& c) ||| ((0xffffffff ^^^ b) &&& d), i)
    else if i < 32 then ((d &&& b) ||| ((0xffffffff ^^^ d) &&& c), (5 * i + 1) % 16)
    else if i < 48 then (b ^^^ c ^^^ d, (3 * i + 5) % 16)
    else (c ^^^ (b ||| (0xffffffff ^^^ d)), (7 * i) % 16)
  let tmp := (a + fg.1 + md5K.getD i 0 + M fg.2) % 4294967296
  (d, (b + rotl32 tmp (md5S.getD i 0)) % 4294967296, b, c)

/-- Little-endian 32-bit word `g` of a 64-byte chunk. -/
def md5Word (chunk : List Nat) (g : Nat) : Nat :=
  chunk.getD (4 * g) 0 + 256 * chunk.getD (4 * g + 1) 0 +
    65536 * chunk.getD (4 * g + 2) 0 + 16777216 * chunk.getD (4 * g + 3) 0

/-- MD5 padding: a `0x80` byte, zeros up to 56 mod 64, then the bit length
as a little-endian 64-bit value. -/
def md5Pad (msg : List Nat) : List Nat :=
  let L := msg.length
  let k := (120 - ((L + 1) % 64)) % 64
  let bitLen := (8 * L) % 18446744073709551616
  msg ++ [128] ++ List.replicate k 0 ++
    (List.range 8).map (fun i => (bitLen >>> (8 * i)) % 256)

/-- Split a byte list into 64-byte chunks (fuel-driven structural version). -/
def chunksAux : Nat → List Nat → List (List Nat)
  | 0, _ => []
  | _, [] => []
  | fuel + 1, l => l.take 64 :: chunksAux fuel (l.drop 64)

/-- Split a byte list into 64-byte chunks. -/
def toChunks64 (l : List Nat) : List (List Nat) :=
  chunksAux l.length l

/-- MD5 digest of a byte list, as the 16 output bytes. -/
def md5Digest (msg : List Nat) : List Nat :=
  let chunks := toChunks64 (md5Pad msg)
  let st :=
    chunks.foldl
      (fun (st : Nat × Nat × Nat × Nat) chunk =>
        let M := md5Word chunk
        let r := (List.range 64).foldl (md5Round M) st
        ((st.1 + r.1) % 4294967296, (st.2.1 + r.2.1) % 4294967296,
         (st.2.2.1 + r.2.2.1) % 4294967296, (st.2.2.2 + r.2.2.2) % 4294967296))
      (0x67452301, 0xefcdab89, 0x98badcfe, 0x10325476)
  (([st.1, st.2.1, st.2.2.1, st.2.2.2].map
      (fun w => (List.range 4).map (fun i => (w >>> (8 * i)) % 256)))).flatten

/-- Lowercase hexadecimal digit. -/
def hexDigit (n : Nat) : Char :=
  "0123456789abcdef".toList.getD n '0'

/-- Two lowercase hex characters for one byte. -/
def byteHex (b : Nat) : List Char :=
  [hexDigit (b / 16), hexDigit (b % 16)]

/-- Model of `crypto.createHash('md5').update(bytes).digest('hex')`:
the MD5 digest rendered as a lowercase hexadecimal string. -/
def md5Hex (msg : List Nat) : String :=
  (((md5Digest msg).map byteHex).flatten).asString

/-! ## Data model

Records mirror the Prisma schema (`assets` and `asset_meta_base` tables)
and the shapes passed between `asset.routes.ts` and
`asset.controller.ts`. -/

/-- The five-field metadata record (`AssetMetaBase` without its surrogate
key), as accepted by `ingestAsset` and `upsertMetadata`. -/
structure MetaData where
  asset_type : String
  asset_class : String
  asset_location_name : String
  asset_camera : String
  asset_date_label : String
deriving Repr, DecidableEq

/-- A row of the `assets` table, exactly the fields `ingestAsset` writes. -/
structure AssetRow where
  uuid : String
  imported_fullpath : String
  imported_filename : String
  stored_fullpath : String
  stored_url : String
  size : Nat
  stored_filename : String
  extension : String
  hash : String
deriving Repr, DecidableEq

/-- Database state: the `assets` table and the `asset_meta_base` table
(the latter keyed by its unique `asset_id` foreign key). -/
structure Db where
  assets : List AssetRow
  meta : List (String × MetaData)
deriving Repr, DecidableEq

/-- The uploaded `File` object: name, reported size, MIME type and the
byte buffer obtained from `file.arrayBuffer()`. -/
structure RFile where
  name : String
  size : Nat
  type : String
  content : List Nat
deriving Repr, DecidableEq

/-- MinIO object-store state: keys mapped to byte contents.  `putObject`
shadows earlier entries; `getObject` reads the most recent write. -/
abbrev Store := List (String × List Nat)

/-- Upload an object (MinIO `uploadObject`). -/
def putObject (s : Store) (k : String) (v : List Nat) : Store :=
  (k, v) :: s

/-- Read an object back, if present. -/
def getObject (s : Store) (k : String) : Option (List Nat) :=
  (s.find? (fun p => p.1 == k)).map (fun p => p.2)

/-- Delete an object (MinIO `deleteObject`). -/
def deleteObject (s : Store) (k : String) : Store :=
  s.filter (fun p => p.1 != k)

/-- Errors thrown inside the controller: either the controller's own
`ServerError` (message plus HTTP status code) or a foreign exception
thrown by a client library, identified by a tag. -/
inductive JsError where
  | server (msg : String) (statusCode : Nat)
  | external (tag : String)
deriving Repr, DecidableEq

/-- The rethrow policy of both catch blocks in `asset.controller.ts`:
a `ServerError` is rethrown unchanged, anything else is wrapped. -/
def wrapIngestErr : JsError → JsError
  | .server msg code => .server msg code
  | .external _ => .server "Failed to ingest asset" 500

/-- One logger call: `logger.info` or `logger.error` (the latter possibly
carrying the caught error object). -/
inductive LogEntry where
  | info (msg : String)
  | errorLog (msg : String) (err : Option JsError)
deriving Repr, DecidableEq

/-- The compact asset projection published on the `asset_ingested`
Redis channel. -/
structure EventAsset where
  uuid : String
  filename : String
  url : String
  extension : String
  size : Nat
deriving Repr, DecidableEq

/-- The full payload of an `asset_ingested` event. -/
structure EventPayload where
  asset : EventAsset
  meta : Option MetaData
deriving Repr, DecidableEq

/-- Outcomes of the external calls made during one `ingestAsset` run:
`none` means the call succeeds, `some e` means it throws `e`.
`presignUrl` is the URL returned by a successful `getPresignedUrl`. -/
structure Oracle where
  uploadErr : Option JsError
  presignErr : Option JsError
  presignUrl : String
  dbErr : Option JsError
  publishErr : Option JsError
  deleteErr : Option JsError
deriving Repr, DecidableEq

/-- Everything observable about one `ingestAsset` run: the returned value
or thrown error, the final object-store and database states, the events
published, the delete calls issued, and the log. -/
structure IngestOutcome where
  result : Except JsError (AssetRow × Option MetaData)
  store : Store
  db : Db
  published : List EventPayload
  deletes : List String
  log : List LogEntry
deriving Repr

/-! ## Storage-path derivation

Two separate transcriptions: `uploadStoredPath` is the success-path
computation (asset.controller.ts lines 67-87), `cleanupStoredPath` is the
recomputation inside the catch block (lines 160-181).  The code duplicates
the derivation; keeping two definitions lets the equality be a theorem. -/

/-- Storage path as derived before the upload (lines 67-87). -/
def uploadStoredPath (assetUuid : String) (fileName : String)
    (metaData : Option MetaData) : String :=
  let fileExtension := extname fileName
  match metaData with
  | some m =>
    let datePart := digitsOnly m.asset_date_label
    let metaPath := String.intercalate "/"
      [m.asset_type, m.asset_class,
       wsToUnderscoreLower m.asset_location_name,
       wsToUnderscoreLower m.asset_camera,
       if datePart = "" then "undated" else datePart]
    "assets/" ++ metaPath ++ "/" ++ assetUuid ++ fileExtension
  | none => "assets/unclassified/" ++ assetUuid ++ fileExtension

/-- Storage path as recomputed in the failure branch for the compensating
delete (lines 160-181). -/
def cleanupStoredPath (assetUuid : String) (fileName : String)
    (metaData : Option MetaData) : String :=
  let fileExtension := extname fileName
  match metaData with
  | some m =>
    let datePart := digitsOnly m.asset_date_label
    let metaPath := String.intercalate "/"
      [m.asset_type, m.asset_class,
       wsToUnderscoreLower m.asset_location_name,
       wsToUnderscoreLower m.asset_camera,
       if datePart = "" then "undated" else datePart]
    "assets/" ++ metaPath ++ "/" ++ assetUuid ++ fileExtension
  | none => "assets/unclassified/" ++ assetUuid ++ fileExtension

/-! ## The ingestion workflow -/

/-- The catch block of `ingestAsset` (lines 153-194): log the failure,
recompute the storage path, attempt the compensating delete (its own
failure only being logged), then rethrow per `wrapIngestErr`. -/
def ingestCatch (o : Oracle) (assetUuid fileName : String)
    (metaData : Option MetaData) (err : JsError) (store : Store) (db : Db)
    (published : List EventPayload) (log : List LogEntry) : IngestOutcome :=
  let log := log ++ [.errorLog "Asset ingestion failed:" (some err)]
  let storedPath := cleanupStoredPath assetUuid fileName metaData
  match o.deleteErr with
  | none =>
    { result := .error (wrapIngestErr err)
      store := deleteObject store storedPath
      db := db
      published := published
      deletes := [storedPath]
      log := log ++ [.info ("Cleaned up failed upload: " ++ storedPath)] }
  | some cleanupError =>
    { result := .error (wrapIngestErr err)
      store := store
      db := db
      published := published
      deletes := [storedPath]
      log := log ++ [.errorLog "Failed to clean up after failed asset ingestion:"
                       (some cleanupError)] }

/-- `AssetController.ingestAsset`.  `assetUuid` stands for the value of
`crypto.randomUUID()`; `o` fixes the outcome of each external call. -/
def ingestAsset (o : Oracle) (store0 : Store) (db0 : Db) (assetUuid : String)
    (file : RFile) (metaData : Option MetaData) : IngestOutcome :=
  let log0 := [LogEntry.info ("Starting asset ingestion: " ++ assetUuid)]
  let fileContent := file.content
  let fileExtension := extname file.name
  let storedPath := uploadStoredPath assetUuid file.name metaData
  let log1 := log0 ++ [.info ("Uploading file to MinIO: " ++ storedPath)]
  match o.uploadErr with
  | some e => ingestCatch o assetUuid file.name metaData e store0 db0 [] log1
  | none =>
    let store1 := putObject store0 storedPath fileContent
    match o.presignErr with
    | some e => ingestCatch o assetUuid file.name metaData e store1 db0 [] log1
    | none =>
      let log2 := log1 ++ [.info ("Creating asset record in database: " ++ assetUuid)]
      let row : AssetRow :=
        { uuid := assetUuid
          imported_fullpath := file.name
          imported_filename := basename file.name
          stored_fullpath := storedPath
          stored_url := o.presignUrl
          size := file.size
          stored_filename := basename storedPath
          extension := removeDotOnce fileExtension
          hash := md5Hex fileContent }
      match o.dbErr with
      | some e => ingestCatch o assetUuid file.name metaData e store1 db0 [] log2
      | none =>
        let db1 : Db :=
          { assets := db0.assets ++ [row]
            meta :=
              match metaData with
              | some m => db0.meta ++ [(assetUuid, m)]
              | none => db0.meta }
        let log3 := log2 ++ [.info ("Emitting asset_ingested event for: " ++ assetUuid)]
        let payload : EventPayload :=
          { asset := { uuid := row.uuid, filename := row.imported_filename,
                       url := row.stored_url, extension := row.extension,
                       size := row.size }
            meta := metaData }
        match o.publishErr with
        | some e => ingestCatch o assetUuid file.name metaData e store1 db1 [] log3
        | none =>
          { result := .ok (row, metaData)
            store := store1
            db := db1
            published := [payload]
            deletes := []
            log := log3 ++ [.info ("Asset ingestion completed successfully: " ++ assetUuid)] }

/-! ## Database queries and the metadata upsert -/

/-- Prisma `asset.findUnique({ where: { uuid } })`. -/
def findAsset (db : Db) (u : String) : Option AssetRow :=
  db.assets.find? (fun a => a.uuid == u)

/-- Stored metadata for an asset (`meta_base` read keyed on `asset_id`). -/
def findMeta (db : Db) (u : String) : Option MetaData :=
  (db.meta.find? (fun p => p.1 == u)).map (fun p => p.2)

/-- Overwrite every metadata row keyed `u` with the new value. -/
def replaceMeta (l : List (String × MetaData)) (u : String) (m : MetaData) :
    List (String × MetaData) :=
  l.map (fun p => if p.1 == u then (u, m) else p)

/-- Prisma `assetMetaBase.upsert({ where: { asset_id: u } })` on the
metadata table: update the existing row if one matches, otherwise create
a new one linked to the asset. -/
def upsertMetaList (l : List (String × MetaData)) (u : String) (m : MetaData) :
    List (String × MetaData) :=
  if l.any (fun p => p.1 == u) then replaceMeta l u m else l ++ [(u, m)]

/-- `AssetController.upsertMetadata` (lines 205-277): 404 when the asset
does not exist, otherwise upsert the metadata row and re-read the asset
with its metadata included. -/
def upsertMetadata (db : Db) (assetUuid : String) (m : MetaData) :
    Except JsError (Option (AssetRow × Option MetaData)) × Db :=
  match findAsset db assetUuid with
  | none => (.error (.server "Asset not found" 404), db)
  | some _ =>
    let db1 : Db := { db with meta := upsertMetaList db.meta assetUuid m }
    (.ok ((findAsset db1 assetUuid).map (fun a => (a, findMeta db1 assetUuid))), db1)

/-! ## HTTP route handlers -/

/-- JavaScript truthiness of an optional string field (`undefined` and
`""` are falsy). -/
def truthy : Option String → Bool
  | none => false
  | some s => s != ""

/-- The five optional metadata fields of the multipart `/assets/ingest`
body. -/
structure IngestBody where
  asset_type : Option String
  asset_class : Option String
  asset_location_name : Option String
  asset_camera : Option String
  asset_date_label : Option String
deriving Repr, DecidableEq

/-- `hasAllMetadataFields` from the ingest route (asset.routes.ts
lines 52-56). -/
def allMetaTruthy (b : IngestBody) : Bool :=
  truthy b.asset_type && truthy b.asset_class && truthy b.asset_location_name &&
    truthy b.asset_camera && truthy b.asset_date_label

/-- Shape of the JSON responses produced by the route handlers. -/
structure ApiResp where
  status : Nat
  success : Bool
  error : Option String
  data : Option (AssetRow × Option MetaData)
deriving Repr, DecidableEq

/-- The `POST /assets/ingest` handler (asset.routes.ts lines 31-117):
pass the metadata to the controller iff all five fields are truthy,
otherwise ingest without metadata; map a thrown error to its status code. -/
def routeIngest (o : Oracle) (store0 : Store) (db0 : Db) (assetUuid : String)
    (file : RFile) (b : IngestBody) : ApiResp × Store × Db :=
  let metaData : Option MetaData :=
    if allMetaTruthy b then
      some { asset_type := b.asset_type.getD ""
             asset_class := b.asset_class.getD ""
             asset_location_name := b.asset_location_name.getD ""
             asset_camera := b.asset_camera.getD ""
             asset_date_label := b.asset_date_label.getD "" }
    else none
  let out := ingestAsset o store0 db0 assetUuid file metaData
  match out.result with
  | .ok a =>
    ({ status := 200, success := true, error := none, data := some a },
     out.store, out.db)
  | .error (.server msg code) =>
    ({ status := code, success := false, error := some msg, data := none },
     out.store, out.db)
  | .error (.external tag) =>
    ({ status := 500, success := false, error := some tag, data := none },
     out.store, out.db)

/-- The five metadata fields of the `POST /assets/:uuid/metadata` body as
seen by the handler (absent and empty both being falsy). -/
structure UpsertBody where
  asset_type : Option String
  asset_class : Option String
  asset_location_name : Option String
  asset_camera : Option String
  asset_date_label : Option String
deriving Repr, DecidableEq

/-- `missingFields` of the metadata route (asset.routes.ts lines 142-144):
field names whose values are falsy, in object-entry order. -/
def missingMetaFields (b : UpsertBody) : List String :=
  (([("asset_type", b.asset_type), ("asset_class", b.asset_class),
     ("asset_location_name", b.asset_location_name),
     ("asset_camera", b.asset_camera),
     ("asset_date_label", b.asset_date_label)].filter
      (fun p => !truthy p.2)).map (fun p => p.1))

/-- The `POST /assets/:uuid/metadata` handler (asset.routes.ts
lines 120-190): reject with 400 and the list of missing fields before any
database access, otherwise call the controller and map errors to status
codes. -/
def routeUpsertMetadata (db : Db) (assetUuid : String) (b : UpsertBody) :
    ApiResp × Db :=
  let missing := missingMetaFields b
  if missing ≠ [] then
    ({ status := 400, success := false,
       error := some ("Missing required metadata fields: " ++
                       String.intercalate ", " missing)
       data := none }, db)
  else
    let m : MetaData :=
      { asset_type := b.asset_type.getD ""
        asset_class := b.asset_class.getD ""
        asset_location_name := b.asset_location_name.getD ""
        asset_camera := b.asset_camera.getD ""
        asset_date_label := b.asset_date_label.getD "" }
    match upsertMetadata db assetUuid m with
    | (.ok a, db1) =>
      ({ status := 200, success := true, error := none, data := a }, db1)
    | (.error (.server msg code), db1) =>
      ({ status := code, success := false, error := some msg, data := none }, db1)
    | (.error (.external tag), db1) =>
      ({ status := 500, success := false, error := some tag, data := none }, db1)

/-! ## Concrete fixtures used by several scenarios -/

/-- The metadata of the spec's ingestion scenario. -/
def metaPhoto : MetaData :=
  { asset_type := "img", asset_class := "family",
    asset_location_name := "Lake House", asset_camera := "Canon R5",
    asset_date_label := "2024-07-01" }

/-- The file of the spec's ingestion scenario: `"photo.jpg"`, 1024 bytes. -/
def filePhoto : RFile :=
  { name := "photo.jpg", size := 1024, type := "image/jpeg", content := [1, 2, 3] }

/-- A file whose name carries an upper-case extension. -/
def fileUpper : RFile :=
  { name := "photo.JPG", size := 4, type := "image/jpeg", content := [9, 9] }

/-! ## Helper lemmas -/

/-- The failure-branch path recomputation agrees with the success-path
derivation on every input (the two code blocks are identical). -/
theorem cleanupStoredPath_eq_uploadStoredPath (assetUuid fileName : String)
    (m : Option MetaData) :
    cleanupStoredPath assetUuid fileName m = uploadStoredPath assetUuid fileName m := by
  cases m <;> rfl

/-- After deleting a key, reading it yields nothing. -/
theorem getObject_deleteObject (s : Store) (k : String) :
    getObject (deleteObject s k) k = none := by
  unfold getObject deleteObject
  rw [List.find?_eq_none.2, Option.map_none']
  intro p hp
  have hkeep := List.of_mem_filter hp
  simp only [bne_iff_ne, ne_eq] at hkeep
  simp [hkeep]

/-- Reading a key just written yields the written value. -/
theorem getObject_putObject (s : Store) (k : String) (v : List Nat) :
    getObject (putObject s k v) k = some v := by
  simp [getObject, putObject, List.find?_cons]

/-! ## C1 -/

/-- C1: if the database write (step 7) fails after the object upload (step 4)
succeeded, `ingestAsset` recomputes the storage path from the same inputs in
its failure branch, the recomputed path equals the path used for the upload,
the delete is issued at that path, and the object no longer exists in the
store afterwards. -/
theorem C1_db_failure_compensating_delete (url : String) (e : JsError)
    (store : Store) (db : Db) (assetUuid : String) (file : RFile)
    (m : Option MetaData) :
    cleanupStoredPath assetUuid file.name m = uploadStoredPath assetUuid file.name m ∧
    (ingestAsset ⟨none, none, url, some e, none, none⟩ store db assetUuid file m).deletes
      = [uploadStoredPath assetUuid file.name m] ∧
    getObject
      (ingestAsset ⟨none, none, url, some e, none, none⟩ store db assetUuid file m).store
      (uploadStoredPath assetUuid file.name m) = none := by
  refine ⟨cleanupStoredPath_eq_uploadStoredPath _ _ _, ?_, ?_⟩
  · show [cleanupStoredPath assetUuid file.name m] = [uploadStoredPath assetUuid file.name m]
    rw [cleanupStoredPath_eq_uploadStoredPath]
  · show getObject
      (deleteObject (putObject store (uploadStoredPath assetUuid file.name m) file.content)
        (cleanupStoredPath assetUuid file.name m))
      (uploadStoredPath assetUuid file.name m) = none
    rw [cleanupStoredPath_eq_uploadStoredPath]
    exact getObject_deleteObject _ _

/-! ## C2 -/

/-- C2 counterexample: with steps 1-7 all succeeding, a failing
`asset_ingested` publish makes `ingestAsset` throw
`ServerError('Failed to ingest asset', 500)` and issue the compensating
delete of the uploaded object, instead of merely logging the publish error
and returning the persisted asset. -/
theorem C2_counterexample :
    (ingestAsset ⟨none, none, "http://minio/u1", none,
        some (.external "redis publish failed"), none⟩
        [] ⟨[], []⟩ "u1" filePhoto (some metaPhoto)).result
      = .error (.server "Failed to ingest asset" 500) ∧
    (ingestAsset ⟨none, none, "http://minio/u1", none,
        some (.external "redis publish failed"), none⟩
        [] ⟨[], []⟩ "u1" filePhoto (some metaPhoto)).deletes
      = ["assets/img/family/lake_house/canon_r5/20240701/u1.jpg"] :=
  ⟨rfl, rfl⟩

/-- C2 (amended): for every ingestion in which steps 1-7 succeed, a failure of
the `asset_ingested` publish causes `ingestAsset` to fail with the wrapped
error (`ServerError('Failed to ingest asset', 500)` for a non-`ServerError`
publish exception), the failure is logged, the compensating delete is issued
at the derived path (so the just-uploaded object is removed), while the asset
row created in step 7 remains in the database; the persisted Asset is not
returned to the caller. -/
theorem C2_amended_publish_failure_fails_ingestion (url : String) (e : JsError)
    (store : Store) (db : Db) (assetUuid : String) (file : RFile)
    (m : Option MetaData) :
    (ingestAsset ⟨none, none, url, none, some e, none⟩ store db assetUuid file m).result
      = .error (wrapIngestErr e) ∧
    (ingestAsset ⟨none, none, url, none, some e, none⟩ store db assetUuid file m).deletes
      = [uploadStoredPath assetUuid file.name m] ∧
    getObject
      (ingestAsset ⟨none, none, url, none, some e, none⟩ store db assetUuid file m).store
      (uploadStoredPath assetUuid file.name m) = none ∧
    (ingestAsset ⟨none, none, url, none, some e, none⟩ store db assetUuid file m).db.assets
      = db.assets ++
        [{ uuid := assetUuid, imported_fullpath := file.name,
           imported_filename := basename file.name,
           stored_fullpath := uploadStoredPath assetUuid file.name m,
           stored_url := url, size := file.size,
           stored_filename := basename (uploadStoredPath assetUuid file.name m),
           extension := removeDotOnce (extname file.name),
           hash := md5Hex file.content }] ∧
    LogEntry.errorLog "Asset ingestion failed:" (some e)
      ∈ (ingestAsset ⟨none, none, url, none, some e, none⟩ store db assetUuid file m).log := by
  refine ⟨rfl, ?_, ?_, rfl, ?_⟩
  · show [cleanupStoredPath assetUuid file.name m] = [uploadStoredPath assetUuid file.name m]
    rw [cleanupStoredPath_eq_uploadStoredPath]
  · show getObject
      (deleteObject (putObject store (uploadStoredPath assetUuid file.name m) file.content)
        (cleanupStoredPath assetUuid file.name m))
      (uploadStoredPath assetUuid file.name m) = none
    rw [cleanupStoredPath_eq_uploadStoredPath]
    exact getObject_deleteObject _ _
  · show LogEntry.errorLog "Asset ingestion failed:" (some e) ∈ _ ++ [_] ++ [_]
    simp

/-! ## C3 -/

/-- C3 counterexample: for the scenario's exact inputs the code derives the
storage path with camera component `canon_r5` (whitespace collapsed to an
underscore), not the claimed `canonr5`. -/
theorem C3_counterexample :
    (ingestAsset ⟨none, none, "http://minio/u1", none, none, none⟩ [] ⟨[], []⟩ "u1"
        filePhoto (some metaPhoto)).result.map (fun r => r.1.stored_fullpath)
      = .ok "assets/img/family/lake_house/canon_r5/20240701/u1.jpg" ∧
    "assets/img/family/lake_house/canon_r5/20240701/u1.jpg"
      ≠ "assets/img/family/lake_house/canonr5/20240701/u1.jpg" :=
  ⟨rfl, by decide⟩

/-- C3 (amended): ingesting `"photo.jpg"` of 1024 bytes with the scenario's
metadata stores the asset at
`assets/img/family/lake_house/canon_r5/20240701/{id}.jpg`, with extension
`jpg` and the five metadata fields persisted verbatim. -/
theorem C3_amended_scenario (assetUuid url : String) (store : Store) (db : Db) :
    (ingestAsset ⟨none, none, url, none, none, none⟩ store db assetUuid filePhoto
        (some metaPhoto)).result.map
      (fun r => (r.1.stored_fullpath, r.1.extension, r.2))
      = .ok ("assets/img/family/lake_house/canon_r5/20240701/" ++ assetUuid ++ ".jpg",
             "jpg", some metaPhoto) := by
  rfl

/-! ## C6 -/

/-- C6: a metadata upsert whose asset id refers to no existing Asset fails
with `ServerError('Asset not found', 404)` and leaves the database (both the
assets table and the metadata table) unchanged. -/
theorem C6_upsert_nonexistent_asset (db : Db) (assetUuid : String) (m : MetaData)
    (h : findAsset db assetUuid = none) :
    upsertMetadata db assetUuid m = (.error (.server "Asset not found" 404), db) := by
  unfold upsertMetadata
  rw [h]

/-- C6 witness: on an empty database the upsert of the scenario metadata at
id `"missing"` fails with status 404 and writes nothing. -/
theorem C6_witness :
    upsertMetadata ⟨[], []⟩ "missing" metaPhoto
      = (.error (.server "Asset not found" 404), ⟨[], []⟩) :=
  C6_upsert_nonexistent_asset ⟨[], []⟩ "missing" metaPhoto rfl

/-! ## C8 -/

/-- C8: when the compensating delete itself fails after a database-write
failure, the cleanup failure is logged by its own distinct log call and the
error surfaced to the caller is the (wrapped) original database error,
computed independently of the cleanup error — the root cause is not masked. -/
theorem C8_cleanup_failure_does_not_mask (url : String) (e ec : JsError)
    (store : Store) (db : Db) (assetUuid : String) (file : RFile)
    (m : Option MetaData) :
    (ingestAsset ⟨none, none, url, some e, none, some ec⟩ store db assetUuid file m).result
      = .error (wrapIngestErr e) ∧
    LogEntry.errorLog "Failed to clean up after failed asset ingestion:" (some ec)
      ∈ (ingestAsset ⟨none, none, url, some e, none, some ec⟩ store db assetUuid file m).log := by
  refine ⟨rfl, ?_⟩
  show LogEntry.errorLog "Failed to clean up after failed asset ingestion:" (some ec)
    ∈ _ ++ [_] ++ [_]
  simp

/-! ## C10 -/

/-- C10: the persisted content hash is exactly the MD5 digest of the uploaded
bytes rendered as lowercase hex, computed over the same byte buffer that was
uploaded to the object store; `md5Hex` matches the RFC 1321 test vectors for
the empty message and `"abc"`. -/
theorem C10_content_hash_is_md5_hex (url : String) (store : Store) (db : Db)
    (assetUuid : String) (file : RFile) (m : Option MetaData) :
    (ingestAsset ⟨none, none, url, none, none, none⟩ store db assetUuid file m).result.map
        (fun r => r.1.hash) = .ok (md5Hex file.content) ∧
    getObject
      (ingestAsset ⟨none, none, url, none, none, none⟩ store db assetUuid file m).store
      (uploadStoredPath assetUuid file.name m) = some file.content ∧
    md5Hex [] = "d41d8cd98f00b204e9800998ecf8427e" ∧
    md5Hex [97, 98, 99] = "900150983cd24fb0d6963f7d28e17f72" := by
  refine ⟨rfl, ?_, by decide, by decide⟩
  show getObject (putObject store (uploadStoredPath assetUuid file.name m) file.content)
    (uploadStoredPath assetUuid file.name m) = some file.content
  exact getObject_putObject _ _ _



/-! ## Lemmas about the metadata upsert -/

/-- Replacing does not change which keys match. -/
theorem any_replaceMeta (u : String) (m : MetaData) :
    ∀ l : List (String × MetaData),
      (replaceMeta l u m).any (fun p => p.1 == u) = l.any (fun p => p.1 == u) := by
  intro l
  induction l with
  | nil => rfl
  | cons p t ih =>
    simp only [replaceMeta, List.map_cons, List.any_cons] at ih ⊢
    rw [ih]
    by_cases hp : p.1 = u
    · rw [if_pos (by simp [hp])]
      simp [hp]
    · rw [if_neg (by simp [hp])]

/-- Replacing twice with the same key and value is the same as once. -/
theorem replaceMeta_replaceMeta (u : String) (m : MetaData) :
    ∀ l : List (String × MetaData),
      replaceMeta (replaceMeta l u m) u m = replaceMeta l u m := by
  intro l
  induction l with
  | nil => rfl
  | cons p t ih =>
    simp only [replaceMeta, List.map_cons] at ih ⊢
    congr 1
    by_cases hp : p.1 = u
    · rw [if_pos (by simp [hp]), if_pos (by simp [hp])]
    · rw [if_neg (by simp [hp]), if_neg (by simp [hp])]

/-- Replacing a key that occurs nowhere is the identity. -/
theorem replaceMeta_eq_of_not_any (u : String) (m : MetaData) :
    ∀ l : List (String × MetaData),
      l.any (fun p => p.1 == u) = false → replaceMeta l u m = l := by
  intro l
  induction l with
  | nil => intro _; rfl
  | cons p t ih =>
    intro h
    simp only [List.any_cons, Bool.or_eq_false_iff] at h
    have hp : ¬ p.1 = u := by simpa using h.1
    simp only [replaceMeta, List.map_cons] at *
    rw [if_neg (by simpa using hp), ih h.2]

/-- After replacing, the first match for the key is the new entry. -/
theorem find?_replaceMeta_of_any (u : String) (m : MetaData) :
    ∀ l : List (String × MetaData), l.any (fun p => p.1 == u) = true →
      (replaceMeta l u m).find? (fun p => p.1 == u) = some (u, m) := by
  intro l
  induction l with
  | nil => intro h; simp at h
  | cons p t ih =>
    intro h
    show List.find? (fun p => p.1 == u)
      ((if (p.1 == u) = true then (u, m) else p) :: replaceMeta t u m) = some (u, m)
    by_cases hp : p.1 = u
    · rw [if_pos (by simp [hp])]
      exact List.find?_cons_of_pos _ (by simp)
    · have hb : (p.1 == u) = false := by simp [hp]
      have ht : t.any (fun q => q.1 == u) = true := by
        rw [List.any_cons, hb, Bool.false_or] at h
        exact h
      rw [if_neg (by simp [hp])]
      rw [List.find?_cons_of_neg _ (by simp [hp])]
      exact ih ht

/-- Appending a fresh entry for an absent key: the appended entry is found. -/
theorem find?_append_entry_of_not_any (u : String) (m : MetaData) :
    ∀ l : List (String × MetaData), l.any (fun p => p.1 == u) = false →
      (l ++ [(u, m)]).find? (fun p => p.1 == u) = some (u, m) := by
  intro l
  induction l with
  | nil => intro _; exact List.find?_cons_of_pos _ (by simp)
  | cons p t ih =>
    intro h
    simp only [List.any_cons, Bool.or_eq_false_iff] at h
    have hp : ¬ p.1 = u := by simpa using h.1
    rw [List.cons_append, List.find?_cons_of_neg _ (by simp [hp])]
    exact ih h.2

/-- An appended entry for the key makes `any` true. -/
theorem any_append_entry (u : String) (m : MetaData) (l : List (String × MetaData)) :
    (l ++ [(u, m)]).any (fun p => p.1 == u) = true := by
  simp [List.any_append]

/-- The Prisma-style upsert on the metadata table is idempotent. -/
theorem upsertMetaList_idem (l : List (String × MetaData)) (u : String) (m : MetaData) :
    upsertMetaList (upsertMetaList l u m) u m = upsertMetaList l u m := by
  unfold upsertMetaList
  by_cases h : l.any (fun p => p.1 == u) = true
  · rw [if_pos h, if_pos (by rw [any_replaceMeta]; exact h), replaceMeta_replaceMeta]
  · have h' : l.any (fun p => p.1 == u) = false := Bool.eq_false_iff.2 h
    rw [if_neg h, if_pos (any_append_entry u m l)]
    show replaceMeta (l ++ [(u, m)]) u m = l ++ [(u, m)]
    unfold replaceMeta
    rw [List.map_append]
    have h1 : (l.map fun p => if p.1 == u then (u, m) else p) = l :=
      replaceMeta_eq_of_not_any u m l h'
    have h2 : ([(u, m)].map fun p => if p.1 == u then (u, m) else p) = [(u, m)] := by
      simp
    rw [h1, h2]

/-- After an upsert, the stored metadata for the key is the upserted value. -/
theorem find?_upsertMetaList (l : List (String × MetaData)) (u : String) (m : MetaData) :
    (upsertMetaList l u m).find? (fun p => p.1 == u) = some (u, m) := by
  unfold upsertMetaList
  by_cases h : l.any (fun p => p.1 == u) = true
  · rw [if_pos h]; exact find?_replaceMeta_of_any u m l h
  · have h' : l.any (fun p => p.1 == u) = false := Bool.eq_false_iff.2 h
    rw [if_neg h]; exact find?_append_entry_of_not_any u m l h'

/-! ## C7 -/

/-- C7: `upsertMetadata` is observationally idempotent: for an existing asset,
applying the same complete metadata twice in a row leaves exactly the state
that one application leaves (the second call is a no-op on stored state), and
the stored metadata after the first call is the supplied value. -/
theorem C7_upsert_idempotent (db : Db) (assetUuid : String) (m : MetaData)
    (h : (findAsset db assetUuid).isSome) :
    (upsertMetadata (upsertMetadata db assetUuid m).2 assetUuid m).2
      = (upsertMetadata db assetUuid m).2 ∧
    findMeta (upsertMetadata db assetUuid m).2 assetUuid = some m := by
  obtain ⟨assets, meta⟩ := db
  obtain ⟨a, ha⟩ := Option.isSome_iff_exists.mp h
  have ha' : findAsset ⟨assets, meta⟩ assetUuid = some a := ha
  have hstep : ∀ X : List (String × MetaData),
      (upsertMetadata ⟨assets, X⟩ assetUuid m).2
        = ⟨assets, upsertMetaList X assetUuid m⟩ := by
    intro X
    unfold upsertMetadata
    have : findAsset ⟨assets, X⟩ assetUuid = some a := ha
    rw [this]
  constructor
  · rw [hstep meta, hstep (upsertMetaList meta assetUuid m), upsertMetaList_idem]
  · rw [hstep meta]
    show ((upsertMetaList meta assetUuid m).find?
        (fun p => p.1 == assetUuid)).map (fun p => p.2) = some m
    rw [find?_upsertMetaList]
    rfl

/-- C7 witness: on a database holding one asset `"a1"`, upserting the
scenario metadata twice equals upserting it once, and the stored metadata is
the supplied value. -/
theorem C7_witness :
    (upsertMetadata
        (upsertMetadata
          ⟨[{ uuid := "a1", imported_fullpath := "photo.jpg",
              imported_filename := "photo.jpg",
              stored_fullpath := "assets/unclassified/a1.jpg",
              stored_url := "http://minio/a1", size := 1024,
              stored_filename := "a1.jpg", extension := "jpg",
              hash := "" }], []⟩ "a1" metaPhoto).2 "a1" metaPhoto).2
      = (upsertMetadata
          ⟨[{ uuid := "a1", imported_fullpath := "photo.jpg",
              imported_filename := "photo.jpg",
              stored_fullpath := "assets/unclassified/a1.jpg",
              stored_url := "http://minio/a1", size := 1024,
              stored_filename := "a1.jpg", extension := "jpg",
              hash := "" }], []⟩ "a1" metaPhoto).2 ∧
    findMeta
        (upsertMetadata
          ⟨[{ uuid := "a1", imported_fullpath := "photo.jpg",
              imported_filename := "photo.jpg",
              stored_fullpath := "assets/unclassified/a1.jpg",
              stored_url := "http://minio/a1", size := 1024,
              stored_filename := "a1.jpg", extension := "jpg",
              hash := "" }], []⟩ "a1" metaPhoto).2 "a1" = some metaPhoto :=
  C7_upsert_idempotent _ "a1" metaPhoto (by decide)

/-! ## C4 -/

/-- C4: if at least one of the five metadata fields of the ingest request is
empty or absent, the route ingests without metadata: the request still
succeeds (partial metadata is silently discarded, not rejected), the asset is
stored at `assets/unclassified/{id}{ext}`, no metadata row is created, and
the returned asset carries no metadata. -/
theorem C4_partial_metadata_unclassified (url : String) (store : Store) (db : Db)
    (assetUuid : String) (file : RFile) (b : IngestBody)
    (h : allMetaTruthy b = false) :
    (routeIngest ⟨none, none, url, none, none, none⟩ store db assetUuid file b).1.success
      = true ∧
    ((routeIngest ⟨none, none, url, none, none, none⟩ store db assetUuid file b).1.data.map
        (fun r => (r.1.stored_fullpath, r.2)))
      = some ("assets/unclassified/" ++ assetUuid ++ extname file.name, none) ∧
    (routeIngest ⟨none, none, url, none, none, none⟩ store db assetUuid file b).2.2.meta
      = db.meta := by
  unfold routeIngest
  rw [h]
  exact ⟨rfl, rfl, rfl⟩

/-- C4 witness: ingesting `"clip.mov"` with only `asset_type` supplied
succeeds, stores under `assets/unclassified/`, and creates no metadata row. -/
theorem C4_witness :
    (routeIngest ⟨none, none, "http://minio/c1", none, none, none⟩ [] ⟨[], []⟩ "c1"
        ⟨"clip.mov", 7, "video/quicktime", [4, 5]⟩
        ⟨some "img", none, none, none, none⟩).1.success = true ∧
    ((routeIngest ⟨none, none, "http://minio/c1", none, none, none⟩ [] ⟨[], []⟩ "c1"
        ⟨"clip.mov", 7, "video/quicktime", [4, 5]⟩
        ⟨some "img", none, none, none, none⟩).1.data.map
        (fun r => (r.1.stored_fullpath, r.2)))
      = some ("assets/unclassified/" ++ "c1" ++ extname "clip.mov", none) ∧
    (routeIngest ⟨none, none, "http://minio/c1", none, none, none⟩ [] ⟨[], []⟩ "c1"
        ⟨"clip.mov", 7, "video/quicktime", [4, 5]⟩
        ⟨some "img", none, none, none, none⟩).2.2.meta = ([] : List (String × MetaData)) :=
  C4_partial_metadata_unclassified "http://minio/c1" [] ⟨[], []⟩ "c1"
    ⟨"clip.mov", 7, "video/quicktime", [4, 5]⟩
    ⟨some "img", none, none, none, none⟩ (by decide)

/-! ## C5 -/

/-- C5: an upsert-metadata request with one or more of the five fields
missing (falsy) is rejected with status 400 before any database access, the
error message listing every missing field by name; a request missing only
`asset_camera` has exactly `["asset_camera"]` as its missing-field list. -/
theorem C5_upsert_validation_lists_missing :
    (∀ (db : Db) (assetUuid : String) (b : UpsertBody),
        missingMetaFields b ≠ [] →
        routeUpsertMetadata db assetUuid b =
          ({ status := 400, success := false,
             error := some ("Missing required metadata fields: " ++
                             String.intercalate ", " (missingMetaFields b)),
             data := none }, db)) ∧
    missingMetaFields
        ⟨some "img", some "family", some "Lake House", none, some "2024-07-01"⟩
      = ["asset_camera"] := by
  constructor
  · intro db assetUuid b h
    unfold routeUpsertMetadata
    rw [if_pos h]
  · rfl

/-- C5 witness: a request missing only `asset_camera` fails with status 400
and the error message names exactly that field; the database is untouched. -/
theorem C5_witness :
    routeUpsertMetadata ⟨[], []⟩ "a1"
        ⟨some "img", some "family", some "Lake House", none, some "2024-07-01"⟩
      = ({ status := 400, success := false,
           error := some "Missing required metadata fields: asset_camera",
           data := none }, ⟨[], []⟩) ∧
    missingMetaFields
        ⟨some "img", some "family", some "Lake House", none, some "2024-07-01"⟩
      = ["asset_camera"] :=
  ⟨C5_upsert_validation_lists_missing.1 ⟨[], []⟩ "a1"
      ⟨some "img", some "family", some "Lake House", none, some "2024-07-01"⟩
      (by decide),
    C5_upsert_validation_lists_missing.2⟩

/-! ## Lemmas about extension extraction -/

/-- `takeWhile` keeps a list all of whose elements satisfy the predicate. -/
theorem takeWhile_all (p : Char → Bool) :
    ∀ l : List Char, (∀ a ∈ l, p a = true) → l.takeWhile p = l := by
  intro l
  induction l with
  | nil => intro _; rfl
  | cons c t ih =>
    intro h
    rw [List.takeWhile_cons_of_pos (h c (List.mem_cons_self c t)),
        ih (fun a ha => h a (List.mem_cons_of_mem c ha))]

/-- `takeWhile` stops exactly at the first failing element. -/
theorem takeWhile_append_stop (p : Char → Bool) (x : Char) (l2 : List Char) :
    ∀ l1 : List Char, (∀ a ∈ l1, p a = true) → p x = false →
      (l1 ++ x :: l2).takeWhile p = l1 := by
  intro l1
  induction l1 with
  | nil =>
    intro _ hx
    show (x :: l2).takeWhile p = []
    rw [List.takeWhile_cons_of_neg (by simp [hx])]
  | cons c t ih =>
    intro h hx
    rw [List.cons_append, List.takeWhile_cons_of_pos (h c (List.mem_cons_self c t)),
        ih (fun a ha => h a (List.mem_cons_of_mem c ha)) hx]

/-- A name without separators is its own basename. -/
theorem basenameList_no_slash (l : List Char) (h : ∀ c ∈ l, ¬ c = '/') :
    basenameList l = l := by
  unfold basenameList
  rw [takeWhile_all _ _ (fun a ha => by simp [h a (List.mem_reverse.mp ha)]),
      List.reverse_reverse]

/-- For a basename of shape `stem.ext` with a dot-free nonempty stem and a
dot-free ext, the extracted extension is `.ext`. -/
theorem extnameList_stem_dot_ext (stem ext : List Char) (hstem : stem ≠ [])
    (hsd : ∀ c ∈ stem, ¬ c = '.') (hed : ∀ c ∈ ext, ¬ c = '.') :
    extnameList (stem ++ '.' :: ext) = '.' :: ext := by
  have hne : stem ++ '.' :: ext ≠ ['.', '.'] := by
    cases stem with
    | nil => exact absurd rfl hstem
    | cons c s =>
      rw [List.cons_append]
      intro hcontra
      injection hcontra with h1 _
      exact hsd c (List.mem_cons_self c s) h1
  have hrev : (stem ++ '.' :: ext).reverse = ext.reverse ++ '.' :: stem.reverse := by
    simp [List.reverse_append, List.reverse_cons, List.append_assoc]
  have htw : (ext.reverse ++ '.' :: stem.reverse).takeWhile (fun c => c != '.')
      = ext.reverse := by
    apply takeWhile_append_stop
    · intro a ha
      simp [hed a (List.mem_reverse.mp ha)]
    · simp
  have hlen : ext.reverse.length + 1 < (stem ++ '.' :: ext).length := by
    have hpos : 0 < stem.length := List.length_pos.mpr hstem
    simp only [List.length_reverse, List.length_append, List.length_cons]
    omega
  simp only [extnameList]
  rw [if_neg hne, hrev, htw, if_pos hlen, List.reverse_reverse]

/-- A basename without any dot has no extension. -/
theorem extnameList_of_no_dot (b : List Char) (hd : ∀ c ∈ b, ¬ c = '.') :
    extnameList b = [] := by
  by_cases hb : b = ['.', '.']
  · simp [extnameList, hb]
  · have htw : b.reverse.takeWhile (fun c => c != '.') = b.reverse :=
      takeWhile_all _ _ (fun a ha => by simp [hd a (List.mem_reverse.mp ha)])
    simp only [extnameList]
    rw [if_neg hb, htw, if_neg (by simp [List.length_reverse])]

/-! ## C9 -/

/-- C9 counterexample: ingesting a file named `"photo.JPG"` stores extension
`JPG` verbatim — the code never lower-cases the extension, contradicting the
claim that the stored extension is lowercase. -/
theorem C9_counterexample :
    (ingestAsset ⟨none, none, "http://minio/u2", none, none, none⟩ [] ⟨[], []⟩ "u2"
        fileUpper none).result.map (fun r => r.1.extension) = .ok "JPG" ∧
    ("JPG" : String) ≠ "jpg" :=
  ⟨rfl, by decide⟩

/-- C9 (amended): the Asset's extension field is the substring of the
filename's basename after the last `.` (empty when the name contains no
dot), with the original letter case preserved — it is not lower-cased.
Concretely: for any filename `stem.ext` whose stem is nonempty and free of
dots and separators and whose ext is free of dots and separators, the stored
extension is exactly `ext`; and for any dot-free filename it is empty. -/
theorem C9_amended_extension_case_preserved :
    (∀ (url : String) (store : Store) (db : Db) (assetUuid : String)
        (size : Nat) (mime : String) (content : List Nat) (m : Option MetaData)
        (stem ext : List Char), stem ≠ [] →
        (∀ c ∈ stem, ¬ c = '.' ∧ ¬ c = '/') →
        (∀ c ∈ ext, ¬ c = '.' ∧ ¬ c = '/') →
        (ingestAsset ⟨none, none, url, none, none, none⟩ store db assetUuid
            ⟨(stem ++ '.' :: ext).asString, size, mime, content⟩ m).result.map
          (fun r => r.1.extension) = .ok ext.asString) ∧
    (∀ (url : String) (store : Store) (db : Db) (assetUuid : String)
        (size : Nat) (mime : String) (content : List Nat) (m : Option MetaData)
        (name : List Char), (∀ c ∈ name, ¬ c = '.' ∧ ¬ c = '/') →
        (ingestAsset ⟨none, none, url, none, none, none⟩ store db assetUuid
            ⟨name.asString, size, mime, content⟩ m).result.map
          (fun r => r.1.extension) = .ok "") := by
  constructor
  · intro url store db assetUuid size mime content m stem ext hstem hstemc hextc
    show Except.ok (removeDotOnce (extname ((stem ++ '.' :: ext).asString)))
      = Except.ok ext.asString
    congr 1
    show (removeFirstDot (extnameList (basenameList (stem ++ '.' :: ext)))).asString
      = ext.asString
    have hb : basenameList (stem ++ '.' :: ext) = stem ++ '.' :: ext := by
      apply basenameList_no_slash
      intro c hc
      rcases List.mem_append.mp hc with h | h
      · exact (hstemc c h).2
      · rcases List.mem_cons.mp h with h' | h'
        · rw [h']; decide
        · exact (hextc c h').2
    apply congrArg List.asString
    rw [hb, extnameList_stem_dot_ext stem ext hstem
          (fun c hc => (hstemc c hc).1) (fun c hc => (hextc c hc).1)]
    rfl
  · intro url store db assetUuid size mime content m name hnamec
    show Except.ok (removeDotOnce (extname (name.asString))) = Except.ok ""
    congr 1
    show (removeFirstDot (extnameList (basenameList name))).asString = ""
    have hb : basenameList name = name :=
      basenameList_no_slash name (fun c hc => (hnamec c hc).2)
    rw [hb, extnameList_of_no_dot name (fun c hc => (hnamec c hc).1)]
    rfl

/-- C9 witness: the amended statement applied to the filename `photo.JPG`
(stem `photo`, extension `JPG`): the stored extension is `JPG`. -/
theorem C9_witness :
    (ingestAsset ⟨none, none, "http://minio/w1", none, none, none⟩ [] ⟨[], []⟩ "w1"
        ⟨("photo".toList ++ '.' :: "JPG".toList).asString, 4, "image/jpeg", [9]⟩
        none).result.map (fun r => r.1.extension)
      = .ok ("JPG".toList).asString :=
  C9_amended_extension_case_preserved.1 "http://minio/w1" [] ⟨[], []⟩ "w1"
    4 "image/jpeg" [9] none "photo".toList "JPG".toList
    (by decide) (by decide) (by decide)
